import Mathlib

/-!
Verification of the hazard-pattern engine and game-state/collision loop of
the Time Mission: Magma Mayhem game (src/game.js).

Shallow embedding conventions:
* JS numbers are modelled as exact rationals (`ℚ`); integer-valued numbers
  as `ℤ` / `ℕ`.  `Math.floor` is `Int.floor`, `Math.round x` is
  `⌊x + 1/2⌋` (JS rounds half toward +∞), the JS `%` operator on numbers
  is `fmod` (`jsMod` below, truncated division remainder) and on integer
  values it is `Int.tmod`.
* `Math.sin`, `Math.cos` and the float constant `Math.PI` are modelled by
  an unspecified environment `MathEnv` of rational-valued functions: no
  claim below depends on their actual values, only on guards and signs.
* `Math.random()` draws are passed in explicitly as parameters (the source
  seeds nothing, so they are free inputs).
* Coordinate-keyed sets use the composite key `(x, z) : ℤ × ℤ` in place of
  the source's string keys `x + "," + z` (the encoding is injective on the
  integer coordinates the game uses, so membership is preserved).
* DOM/HUD/audio/renderer calls are side-effect-free collaborators and are
  dropped; the display-only `setTileState` loop of `updateLavaPatterns` is
  captured by `appliedLava` (the set of cells whose tile is set to lava).
  The `setTimeout(() => levelComplete(), 300)` call is modelled by the
  ghost field `pendingLevelComplete : Option ℚ` holding the delay, and the
  screen shown by `levelComplete` by the ghost field `screen`.
-/

/-- A grid coordinate, the composite key standing for the source's
string key `x + "," + z`. -/
abbrev Coord : Type := ℤ × ℤ

/-- CONFIG.GRID.WIDTH. -/
def WIDTH : ℤ := 12

/-- CONFIG.GRID.HEIGHT. -/
def HEIGHT : ℤ := 16

/-- CONFIG.PLAYER.HOP_DURATION (ms). -/
def HOP_DURATION : ℚ := 100

/-- CONFIG.PLAYER.START_LIVES. -/
def START_LIVES : ℤ := 3

/-- CONFIG.LEVELS.TOTAL. -/
def TOTAL_LEVELS : ℕ := 12

/-- CONFIG.LEVELS.POINTS_PER_LEVEL. -/
def POINTS_PER_LEVEL : List ℕ := [6, 7, 7, 8, 8, 8, 9, 9, 9, 9, 10, 10]

/-- CONFIG.LEVELS.BASE_SPEED. -/
def BASE_SPEED : ℚ := 900

/-- CONFIG.LEVELS.SPEED_DECREASE. -/
def SPEED_DECREASE : ℚ := 40

/-- GameState.maxLevelScore (a constant field of the state object). -/
def maxLevelScore : ℤ := 10

/-- GameState.gracePeriod in ms (a constant field of the state object). -/
def gracePeriod : ℚ := 10000

/-- GameState.scoreDecayTime in ms (a constant field of the state object). -/
def scoreDecayTime : ℚ := 20000

/-- Truncation of a rational toward zero, as JS division-based remainders
truncate. -/
def truncQ (q : ℚ) : ℤ := if 0 ≤ q then ⌊q⌋ else ⌈q⌉

/-- The JS `%` operator on numbers (fmod): `a - b * trunc (a / b)`. -/
def jsMod (a b : ℚ) : ℚ := a - b * truncQ (a / b)

/-- JS `Math.round`: rounds half toward positive infinity. -/
def jsRound (q : ℚ) : ℤ := ⌊q + 1 / 2⌋

/-- Unspecified model of the float library functions `Math.cos`,
`Math.sin` and the float constant `Math.PI`.  Every theorem below holds
for an arbitrary such environment. -/
structure MathEnv where
  cos : ℚ → ℚ
  sin : ℚ → ℚ
  pi : ℚ

/-- The hazard pattern objects pushed onto `GameState.lavaPatterns`, a
tagged variant per `type` string.  Fields never read by the evaluators
(`phase` of checkerboard, `currentRow`, `currentCol`, the unused
`direction` of spiral, the unused `speed` of checkerboard, the unused
`offset` of wave in the adders) are omitted. -/
inductive Pattern : Type
  | horizontal (row : ℤ) (width : ℕ) (direction : ℤ) (offset speed : ℚ)
  | vertical (col : ℤ) (height : ℕ) (direction : ℤ) (offset speed : ℚ)
  | wave (amplitude frequency : ℚ) (width : ℕ) (speed : ℚ)
  | ring (centerX centerZ : ℤ) (maxRadius speed : ℚ)
  | snake (positions : List Coord) (headX headZ : ℤ) (direction : ℕ)
      (length : ℕ) (lastMoveTime speed : ℚ)
  | blinker (positions : List (Coord × ℚ)) (interval : ℚ)
  | diagonal_sweep (direction : ℤ) (width : ℕ) (speed offset : ℚ)
  | row_march (width : ℕ) (speed : ℚ)
  | column_march (width : ℕ) (speed : ℚ)
  | rotating_cross (armLength : ℕ) (speed : ℚ)
  | spiral (speed : ℚ)
  | gray_pulse (interval : ℚ)
  | checkerboard_pulse (interval : ℚ)
  | rolling_x (offset speed : ℚ) (size : ℕ)
  deriving DecidableEq

/-- The ghost record of which overlay screen the progression controller
has shown (DOM effects of levelComplete / gameOver / win). -/
inductive Screen : Type
  | noScreen
  | levelCompleteScreen
  | winScreen
  | gameOverScreen
  deriving DecidableEq

/-- The authoritative game state (the mutable global `GameState` object),
restricted to the core fields; rendering-only fields (`tiles`,
`hopStartPos`, mesh positions) are out of scope. -/
structure GState where
  currentLevel : ℕ
  totalScore : ℤ
  livesRemaining : ℤ
  isPaused : Bool
  isGameOver : Bool
  isPlaying : Bool
  isCountingDown : Bool
  playerPosition : Coord
  lavaTiles : Finset Coord
  collectibleTiles : Finset Coord
  safeIslands : Finset Coord
  isHopping : Bool
  hopStartTime : ℚ
  hopEndPos : Coord
  lavaPatterns : List Pattern
  invincible : Bool
  invincibleUntil : ℚ
  levelStartTime : ℚ
  currentLevelScore : ℤ
  screen : Screen
  pendingLevelComplete : Option ℚ
  deriving DecidableEq

/-- gameOver(): stops play, flags game over, shows the game-over screen. -/
def gameOver (s : GState) : GState :=
  { s with isPlaying := false, isGameOver := true, screen := Screen.gameOverScreen }

/-- respawnPlayer(): reset the player to the spawn cell (6, 14), clear the
hop flag, grant invincibility until `now + 2500`. -/
def respawnPlayer (now : ℚ) (s : GState) : GState :=
  { s with playerPosition := (6, 14), isHopping := false,
           invincible := true, invincibleUntil := now + 2500 }

/-- playerHit(): ignored while invincible; otherwise decrement lives and
either end the game (lives ≤ 0) or respawn. -/
def playerHit (now : ℚ) (s : GState) : GState :=
  if s.invincible then s
  else
    let s1 := { s with livesRemaining := s.livesRemaining - 1 }
    if s1.livesRemaining ≤ 0 then gameOver s1 else respawnPlayer now s1

/-- checkLavaCollision(): skipped while hopping, invincible or counting
down; safe islands shield the player; otherwise a lava tile under the
player triggers playerHit. -/
def checkLavaCollision (now : ℚ) (s : GState) : GState :=
  if s.isHopping || s.invincible || s.isCountingDown then s
  else if s.playerPosition ∈ s.safeIslands then s
  else if s.playerPosition ∈ s.lavaTiles then playerHit now s
  else s

/-- movePlayer(dx, dz): rejected while hopping, paused, not playing or
counting down, or when the target cell is out of the grid; an accepted
move starts the hop and immediately moves the authoritative position. -/
def movePlayer (now : ℚ) (dx dz : ℤ) (s : GState) : GState :=
  if s.isHopping || s.isPaused || !s.isPlaying || s.isCountingDown then s
  else
    let newX := s.playerPosition.1 + dx
    let newZ := s.playerPosition.2 + dz
    if newX < 0 ∨ WIDTH ≤ newX ∨ newZ < 0 ∨ HEIGHT ≤ newZ then s
    else
      { s with isHopping := true, hopStartTime := now,
               hopEndPos := (newX, newZ), playerPosition := (newX, newZ) }

/-- collectItem(x, z): remove a collectible under the player; when the set
empties, award `max 1 currentLevelScore` and schedule the level-complete
transition 300 ms later (`pendingLevelComplete`). -/
def collectItem (pos : Coord) (s : GState) : GState :=
  if pos ∈ s.collectibleTiles then
    let s1 := { s with collectibleTiles := s.collectibleTiles.erase pos }
    if s1.collectibleTiles.card = 0 then
      { s1 with totalScore := s1.totalScore + max 1 s1.currentLevelScore,
                pendingLevelComplete := some 300 }
    else s1
  else s

/-- levelComplete(): stop play; show the win screen when the current level
is already the last one, the level-complete screen otherwise. -/
def levelComplete (s : GState) : GState :=
  { s with isPlaying := false,
           screen := if TOTAL_LEVELS ≤ s.currentLevel then Screen.winScreen
                     else Screen.levelCompleteScreen }

/-- nextLevel(): advance the level counter, reset lives to the starting
count, clear all per-level coordinate sets (the countdown that follows is
sequenced by timers outside this step). -/
def nextLevel (s : GState) : GState :=
  { s with currentLevel := s.currentLevel + 1, livesRemaining := START_LIVES,
           lavaTiles := ∅, collectibleTiles := ∅, safeIslands := ∅,
           screen := Screen.noScreen }

/-- The per-tick score recomputation of updateTimeBasedScore as a function
of the elapsed time since level start. -/
def currentScoreAt (elapsed : ℚ) : ℤ :=
  if elapsed ≤ gracePeriod then maxLevelScore
  else
    let decayProgress := min ((elapsed - gracePeriod) / scoreDecayTime) 1
    max 1 (jsRound ((maxLevelScore : ℚ) * (1 - decayProgress)))

/-- updateTimeBasedScore(): no-op unless playing and not paused; otherwise
recompute the decaying potential score from the elapsed time. -/
def updateTimeBasedScore (now : ℚ) (s : GState) : GState :=
  if !s.isPlaying || s.isPaused then s
  else { s with currentLevelScore := currentScoreAt (now - s.levelStartTime) }

/-- updateHopAnimation(), restricted to its authoritative effects: when the
hop progress reaches 1, clear the hop flag, then collect at the landing
cell, then check lava collision (the interpolation itself only moves the
mesh). -/
def updateHopAnimation (now : ℚ) (s : GState) : GState :=
  if !s.isHopping then s
  else
    let progress := min ((now - s.hopStartTime) / HOP_DURATION) 1
    if 1 ≤ progress then
      let s1 := { s with isHopping := false }
      checkLavaCollision now (collectItem s1.playerPosition s1)
    else s

/-- updateHorizontalPattern: a bar of `width` consecutive cells sweeping
along `row`; each x is taken mod the grid width and bounds-checked. -/
def updateHorizontalPattern (time baseSpeed : ℚ) (row : ℤ) (width : ℕ)
    (direction : ℤ) (offset speed : ℚ) : Finset Coord :=
  let progress := time / baseSpeed * speed
  let currentPos := jsMod (progress + offset) ((WIDTH : ℚ) + width)
  ((List.range width).filterMap (fun (i : ℕ) =>
    let q := ⌊currentPos + (i : ℚ)⌋
    let x : ℤ := if 0 < direction then Int.tmod q WIDTH
                 else WIDTH - 1 - Int.tmod q WIDTH
    if 0 ≤ x ∧ x < WIDTH then some ((x, row) : Coord) else none)).toFinset

/-- updateVerticalPattern: a bar of `height` consecutive cells sweeping
along `col`, confined to the playable sub-grid (z below HEIGHT - 2). -/
def updateVerticalPattern (time baseSpeed : ℚ) (col : ℤ) (height : ℕ)
    (direction : ℤ) (offset speed : ℚ) : Finset Coord :=
  let progress := time / baseSpeed * speed
  let currentPos := jsMod (progress + offset) ((HEIGHT : ℚ) + height)
  ((List.range height).filterMap (fun (i : ℕ) =>
    let q := ⌊currentPos + (i : ℚ)⌋
    let z : ℤ := if 0 < direction then Int.tmod q (HEIGHT - 2)
                 else (HEIGHT - 3) - Int.tmod q (HEIGHT - 2)
    if 0 ≤ z ∧ z < HEIGHT - 2 then some ((col, z) : Coord) else none)).toFinset

/-- updateWavePattern: a sinusoidal band `width` cells thick. -/
def updateWavePattern (env : MathEnv) (time baseSpeed : ℚ)
    (amplitude frequency : ℚ) (width : ℕ) (speed : ℚ) : Finset Coord :=
  let progress := time / baseSpeed * speed
  ((List.range (WIDTH.toNat)).flatMap (fun (x : ℕ) =>
    let z : ℤ := ⌊((HEIGHT : ℚ) / 2 - 2) +
      env.sin ((x : ℚ) * frequency + progress) * amplitude⌋
    (List.range width).filterMap (fun (w : ℕ) =>
      let wz := z + (w : ℤ)
      if 0 ≤ wz ∧ wz < HEIGHT - 2 then some (((x : ℤ), wz) : Coord)
      else none))).toFinset

/-- updateRingPattern: the outline of an expanding ring; the source's
float loop `for angle = 0; angle < 2π; angle += 0.15` runs 42 times
(0.15 · 41 < 2π ≤ 0.15 · 42). -/
def updateRingPattern (env : MathEnv) (time : ℚ) (centerX centerZ : ℤ)
    (maxRadius speed : ℚ) : Finset Coord :=
  let progress := time / 2000 * speed
  let currentRadius := jsMod progress maxRadius
  ((List.range 42).filterMap (fun (k : ℕ) =>
    let angle := (k : ℚ) * (15 / 100)
    let x := jsRound ((centerX : ℚ) + env.cos angle * currentRadius)
    let z := jsRound ((centerZ : ℚ) + env.sin angle * currentRadius)
    if 0 ≤ x ∧ x < WIDTH ∧ 0 ≤ z ∧ z < HEIGHT - 2 then some ((x, z) : Coord)
    else none)).toFinset

/-- updateSnakePattern: a stateful crawling body; on a movement tick the
head takes a step (with a probability-0.15 random turn, `r1`/`r2` being
the two `Math.random()` draws), bounces off walls by direction reversal,
and the body is trimmed to `length`.  Returns the updated pattern state
together with the occupied cells (those with z below HEIGHT - 2). -/
def updateSnakePattern (r1 r2 : ℚ) (time : ℚ) (positions : List Coord)
    (headX headZ : ℤ) (direction : ℕ) (length : ℕ)
    (lastMoveTime speed : ℚ) : Pattern × Finset Coord :=
  if speed < time - lastMoveTime then
    let d0 := if r1 < 15 / 100 then
        (direction + (if 1 / 2 < r2 then 1 else 3)) % 4
      else direction
    let dirs : List (ℤ × ℤ) := [(1, 0), (0, 1), (-1, 0), (0, -1)]
    let dd := dirs.getD d0 (0, 0)
    let newX0 := headX + dd.1
    let newZ0 := headZ + dd.2
    let d1 := if newX0 < 0 ∨ WIDTH ≤ newX0 then (d0 + 2) % 4 else d0
    let newX := if newX0 < 0 ∨ WIDTH ≤ newX0 then headX else newX0
    let d2 := if newZ0 < 0 ∨ HEIGHT - 2 ≤ newZ0 then (d1 + 2) % 4 else d1
    let newZ := if newZ0 < 0 ∨ HEIGHT - 2 ≤ newZ0 then headZ else newZ0
    let positions1 := (((newX, newZ) : Coord) :: positions).take length
    (Pattern.snake positions1 newX newZ d2 length time speed,
     (positions1.filterMap (fun c =>
       if c.2 < HEIGHT - 2 then some c else none)).toFinset)
  else
    (Pattern.snake positions headX headZ direction length lastMoveTime speed,
     (positions.filterMap (fun c =>
       if c.2 < HEIGHT - 2 then some c else none)).toFinset)

/-- updateBlinkerPattern: fixed cells that blink on when the phase-shifted
sine exceeds 0.3. -/
def updateBlinkerPattern (env : MathEnv) (time : ℚ)
    (positions : List (Coord × ℚ)) (interval : ℚ) : Finset Coord :=
  (positions.filterMap (fun cp =>
    if cp.1.2 < HEIGHT - 2 ∧ 3 / 10 < env.sin (time / interval + cp.2) then
      some cp.1
    else none)).toFinset

/-- updateDiagonalSweep: `width` adjacent anti-diagonals swept across the
grid, each diagonal drawn cell by cell and bounds-checked. -/
def updateDiagonalSweep (time baseSpeed : ℚ) (direction : ℤ) (width : ℕ)
    (speed : ℚ) : Finset Coord :=
  let progress := time / baseSpeed * speed
  let totalDiagonals : ℤ := WIDTH + HEIGHT
  let currentDiag := Int.tmod ⌊progress⌋ totalDiagonals
  ((List.range width).flatMap (fun (w : ℕ) =>
    let diagIndex := Int.tmod (currentDiag + (w : ℤ)) totalDiagonals
    (List.range ((diagIndex + 1).toNat)).filterMap (fun (i : ℕ) =>
      let x : ℤ := if 0 < direction then (i : ℤ) else WIDTH - 1 - (i : ℤ)
      let z : ℤ := diagIndex - (i : ℤ)
      if 0 ≤ x ∧ x < WIDTH ∧ 0 ≤ z ∧ z < HEIGHT - 2 then some ((x, z) : Coord)
      else none))).toFinset

/-- updateRowMarch: `width` full rows marching down the playable sub-grid
at a 1.5× slower time divisor than the bars. -/
def updateRowMarch (time baseSpeed : ℚ) (width : ℕ) (speed : ℚ) :
    Finset Coord :=
  let progress := time / (baseSpeed * (15 / 10)) * speed
  let currentRow := Int.tmod ⌊progress⌋ (HEIGHT - 2)
  ((List.range width).flatMap (fun (w : ℕ) =>
    let row := Int.tmod (currentRow + (w : ℤ)) (HEIGHT - 2)
    (List.range (WIDTH.toNat)).map (fun (x : ℕ) => (((x : ℤ), row) : Coord)))).toFinset

/-- updateColumnMarch: `width` full columns sweeping across at a 1.2×
slower time divisor. -/
def updateColumnMarch (time baseSpeed : ℚ) (width : ℕ) (speed : ℚ) :
    Finset Coord :=
  let progress := time / (baseSpeed * (12 / 10)) * speed
  let currentCol := Int.tmod ⌊progress⌋ WIDTH
  ((List.range width).flatMap (fun (w : ℕ) =>
    let col := Int.tmod (currentCol + (w : ℤ)) WIDTH
    (List.range ((HEIGHT - 2).toNat)).map (fun (z : ℕ) =>
      ((col, (z : ℤ)) : Coord)))).toFinset

/-- updateRotatingCross: two perpendicular arms rotating about the center
of the playable sub-grid; every sample is bounds-checked. -/
def updateRotatingCross (env : MathEnv) (time : ℚ) (armLength : ℕ)
    (speed : ℚ) : Finset Coord :=
  let centerX : ℤ := WIDTH / 2
  let centerZ : ℤ := (HEIGHT - 2) / 2
  let angle := time / 3000 * speed * env.pi * 2
  ((List.range (2 * armLength + 1)).flatMap (fun (k : ℕ) =>
    let i : ℤ := (k : ℤ) - armLength
    let x1 := jsRound ((centerX : ℚ) + env.cos angle * i)
    let z1 := jsRound ((centerZ : ℚ) + env.sin angle * i)
    let x2 := jsRound ((centerX : ℚ) + env.cos (angle + env.pi / 2) * i)
    let z2 := jsRound ((centerZ : ℚ) + env.sin (angle + env.pi / 2) * i)
    (if 0 ≤ x1 ∧ x1 < WIDTH ∧ 0 ≤ z1 ∧ z1 < HEIGHT - 2 then
       [((x1, z1) : Coord)] else []) ++
    (if 0 ≤ x2 ∧ x2 < WIDTH ∧ 0 ≤ z2 ∧ z2 < HEIGHT - 2 then
       [((x2, z2) : Coord)] else []))).toFinset

/-- updateSpiralPattern: 20 samples along an Archimedean spiral from the
center of the playable sub-grid; every sample is bounds-checked. -/
def updateSpiralPattern (env : MathEnv) (time : ℚ) (speed : ℚ) :
    Finset Coord :=
  let centerX : ℤ := WIDTH / 2
  let centerZ : ℤ := (HEIGHT - 2) / 2
  let progress := time / 2000 * speed
  ((List.range 20).filterMap (fun (k : ℕ) =>
    let angle := progress + (k : ℚ) * (3 / 10)
    let radius := (k : ℚ) * (4 / 10)
    let x := jsRound ((centerX : ℚ) + env.cos angle * radius)
    let z := jsRound ((centerZ : ℚ) + env.sin angle * radius)
    if 0 ≤ x ∧ x < WIDTH ∧ 0 ≤ z ∧ z < HEIGHT - 2 then some ((x, z) : Coord)
    else none)).toFinset

/-- updateRollingX: an X shape of half-size `size` rolling down the board;
every cell of both diagonals is bounds-checked. -/
def updateRollingX (time baseSpeed : ℚ) (offset speed : ℚ) (size : ℕ) :
    Finset Coord :=
  let progress := time / baseSpeed * speed
  let totalHeight := (HEIGHT : ℚ) + (size : ℚ) * 2
  let currentZ := jsMod (progress + offset) totalHeight - (size : ℚ)
  let centerX : ℤ := WIDTH / 2
  ((List.range (2 * size + 1)).flatMap (fun (k : ℕ) =>
    let i : ℤ := (k : ℤ) - size
    let z1 : ℤ := ⌊currentZ + (i : ℚ)⌋
    let x1 : ℤ := centerX + i
    let x2 : ℤ := centerX - i
    (if 0 ≤ x1 ∧ x1 < WIDTH ∧ 0 ≤ z1 ∧ z1 < HEIGHT - 2 then
       [((x1, z1) : Coord)] else []) ++
    (if 0 ≤ x2 ∧ x2 < WIDTH ∧ 0 ≤ z1 ∧ z1 < HEIGHT - 2 then
       [((x2, z1) : Coord)] else []))).toFinset

/-- The playable sub-grid cells `0 ≤ x < WIDTH`, `0 ≤ z < HEIGHT - 2`
that the pulse patterns iterate over. -/
def playableCellList : List Coord :=
  (List.range (WIDTH.toNat)).flatMap (fun (x : ℕ) =>
    (List.range ((HEIGHT - 2).toNat)).map (fun (z : ℕ) => (((x : ℤ), (z : ℤ)) : Coord)))

/-- updateGrayPulse: all-or-nothing; while the sine pulse is on, every
playable cell that is neither a safe island nor a collectible is lava. -/
def updateGrayPulse (env : MathEnv) (safe coll : Finset Coord) (time : ℚ)
    (interval : ℚ) : Finset Coord :=
  let pulseOn := 0 < env.sin (time / interval * env.pi)
  if pulseOn then
    (playableCellList.filter (fun c => c ∉ safe ∧ c ∉ coll)).toFinset
  else ∅

/-- updateCheckerboardPulse: cells of one parity class (flipping every
`interval` ms), minus safe islands and collectibles. -/
def updateCheckerboardPulse (safe coll : Finset Coord) (time : ℚ)
    (interval : ℚ) : Finset Coord :=
  let phase := Int.tmod ⌊time / interval⌋ 2
  (playableCellList.filter (fun c =>
    Int.tmod (c.1 + c.2) 2 = phase ∧ c ∉ safe ∧ c ∉ coll)).toFinset

/-- The `switch (pattern.type)` dispatch of updateLavaPatterns: evaluate
one pattern at `time`, returning the (possibly updated, for the stateful
snake) pattern object and the coordinates it adds to `lavaTiles`.
`rnd` supplies the tick's `Math.random()` draws. -/
def evalPattern (env : MathEnv) (safe coll : Finset Coord) (rnd : ℚ × ℚ)
    (time baseSpeed : ℚ) : Pattern → Pattern × Finset Coord
  | Pattern.horizontal row width direction offset speed =>
      (Pattern.horizontal row width direction offset speed,
       updateHorizontalPattern time baseSpeed row width direction offset speed)
  | Pattern.vertical col height direction offset speed =>
      (Pattern.vertical col height direction offset speed,
       updateVerticalPattern time baseSpeed col height direction offset speed)
  | Pattern.wave amplitude frequency width speed =>
      (Pattern.wave amplitude frequency width speed,
       updateWavePattern env time baseSpeed amplitude frequency width speed)
  | Pattern.ring centerX centerZ maxRadius speed =>
      (Pattern.ring centerX centerZ maxRadius speed,
       updateRingPattern env time centerX centerZ maxRadius speed)
  | Pattern.snake positions headX headZ direction length lastMoveTime speed =>
      updateSnakePattern rnd.1 rnd.2 time positions headX headZ direction
        length lastMoveTime speed
  | Pattern.blinker positions interval =>
      (Pattern.blinker positions interval,
       updateBlinkerPattern env time positions interval)
  | Pattern.diagonal_sweep direction width speed offset =>
      (Pattern.diagonal_sweep direction width speed offset,
       updateDiagonalSweep time baseSpeed direction width speed)
  | Pattern.row_march width speed =>
      (Pattern.row_march width speed, updateRowMarch time baseSpeed width speed)
  | Pattern.column_march width speed =>
      (Pattern.column_march width speed,
       updateColumnMarch time baseSpeed width speed)
  | Pattern.rotating_cross armLength speed =>
      (Pattern.rotating_cross armLength speed,
       updateRotatingCross env time armLength speed)
  | Pattern.spiral speed =>
      (Pattern.spiral speed, updateSpiralPattern env time speed)
  | Pattern.gray_pulse interval =>
      (Pattern.gray_pulse interval, updateGrayPulse env safe coll time interval)
  | Pattern.checkerboard_pulse interval =>
      (Pattern.checkerboard_pulse interval,
       updateCheckerboardPulse safe coll time interval)
  | Pattern.rolling_x offset speed size =>
      (Pattern.rolling_x offset speed size,
       updateRollingX time baseSpeed offset speed size)

/-- The per-level base speed `BASE_SPEED - (level - 1) * SPEED_DECREASE`
computed at the top of updateLavaPatterns. -/
def baseSpeedFor (level : ℕ) : ℚ := BASE_SPEED - ((level : ℚ) - 1) * SPEED_DECREASE

/-- updateLavaPatterns: clear the hazard set, re-evaluate every active
pattern at the current time into a fresh union, then run the collision
check.  The tile-display loops are captured separately by `appliedLava`;
`rnd i` supplies the random draws consumed by the i-th pattern. -/
def updateLavaPatterns (env : MathEnv) (rnd : ℕ → ℚ × ℚ) (time : ℚ)
    (s : GState) : GState :=
  let baseSpeed := baseSpeedFor s.currentLevel
  let results := s.lavaPatterns.enum.map (fun ip =>
    evalPattern env s.safeIslands s.collectibleTiles (rnd ip.1) time baseSpeed
      ip.2)
  let s1 := { s with
    lavaTiles := results.foldl (fun acc pr => acc ∪ pr.2) ∅,
    lavaPatterns := results.map Prod.fst }
  checkLavaCollision time s1

/-- The cells whose display tile updateLavaPatterns actually sets to the
lava state: members of `lavaTiles` that are neither safe islands nor
collectibles (the two `forEach` loops skip those). -/
def appliedLava (s : GState) : Finset Coord :=
  s.lavaTiles.filter (fun c => c ∉ s.safeIslands ∧ c ∉ s.collectibleTiles)

/-- createCornerIslands: a 2×2 island at each of the four corner anchors. -/
def createCornerIslands : Finset Coord :=
  (([((1 : ℤ), (1 : ℤ)), (10, 1), (1, 10), (10, 10)]).flatMap (fun c =>
    (List.range 2).flatMap (fun (dx : ℕ) =>
      (List.range 2).filterMap (fun (dz : ℕ) =>
        let x := c.1 + (dx : ℤ)
        let z := c.2 + (dz : ℤ)
        if 0 ≤ x ∧ x < WIDTH ∧ 0 ≤ z ∧ z < HEIGHT - 2 then
          some ((x, z) : Coord)
        else none)))).toFinset

/-- createCenterCross: a 5-cell horizontal and 5-cell vertical line through
the cell (⌊WIDTH/2⌋, ⌊HEIGHT/2⌋ - 1). -/
def createCenterCross : Finset Coord :=
  let centerX : ℤ := WIDTH / 2
  let centerZ : ℤ := HEIGHT / 2 - 1
  (((List.range 5).filterMap (fun (k : ℕ) =>
      let x := centerX + ((k : ℤ) - 2)
      if 0 ≤ x ∧ x < WIDTH then some ((x, centerZ) : Coord) else none)) ++
   ((List.range 5).filterMap (fun (k : ℕ) =>
      let z := centerZ + ((k : ℤ) - 2)
      if 0 ≤ z ∧ z < HEIGHT - 2 then some ((centerX, z) : Coord)
      else none))).toFinset

/-- createDiagonalIslands: four 2-cell stepping stones down a diagonal. -/
def createDiagonalIslands : Finset Coord :=
  ((List.range 4).flatMap (fun (i : ℕ) =>
    let x : ℤ := 2 + (i : ℤ) * 3
    let z : ℤ := 2 + (i : ℤ) * 2
    if x < WIDTH ∧ z < HEIGHT - 2 then
      ((x, z) : Coord) :: (if x + 1 < WIDTH then [((x + 1, z) : Coord)] else [])
    else [])).toFinset

/-- setGreenPerimeter: the whole boundary of the playable sub-grid. -/
def setGreenPerimeter : Finset Coord :=
  (((List.range (WIDTH.toNat)).map (fun (x : ℕ) => (((x : ℤ), (0 : ℤ)) : Coord))) ++
   ((List.range (WIDTH.toNat)).map (fun (x : ℕ) => (((x : ℤ), HEIGHT - 3) : Coord))) ++
   ((List.range ((HEIGHT - 2).toNat)).map (fun (z : ℕ) =>
      (((0 : ℤ), (z : ℤ)) : Coord))) ++
   ((List.range ((HEIGHT - 2).toNat)).map (fun (z : ℕ) =>
      ((WIDTH - 1, (z : ℤ)) : Coord)))).toFinset

/-- createStartingZone: the 3×3 always-safe zone around the spawn cell
(6, 14). -/
def createStartingZone : Finset Coord :=
  ((List.range 3).flatMap (fun (dx : ℕ) =>
    (List.range 3).filterMap (fun (dz : ℕ) =>
      let x : ℤ := 6 + ((dx : ℤ) - 1)
      let z : ℤ := 14 + ((dz : ℤ) - 1)
      if 0 ≤ x ∧ x < WIDTH ∧ 0 ≤ z ∧ z < HEIGHT then some ((x, z) : Coord)
      else none))).toFinset

/-- The do-while of createScatteredIslands: draw candidate cells until one
misses the already-placed set or the 50-attempt cap is reached; `fuel`
counts the remaining retries, `idx` indexes into the draw stream.  Returns
the accepted cell and the next unread draw index. -/
def scatterPick (placed : Finset Coord) (draws : ℕ → ℚ × ℚ) :
    ℕ → ℕ → Coord × ℕ
  | idx, 0 =>
      let d := draws idx
      ((1 + ⌊d.1 * ((WIDTH : ℚ) - 2)⌋, 1 + ⌊d.2 * ((HEIGHT : ℚ) - 5)⌋), idx + 1)
  | idx, fuel + 1 =>
      let d := draws idx
      let c : Coord :=
        (1 + ⌊d.1 * ((WIDTH : ℚ) - 2)⌋, 1 + ⌊d.2 * ((HEIGHT : ℚ) - 5)⌋)
      if c ∈ placed then scatterPick placed draws (idx + 1) fuel else (c, idx + 1)

/-- createScatteredIslands: place `count` random islands, each picked by
rejection sampling against the cells already placed (at most 50 draws
each, matching the source's attempt cap). -/
def createScatteredIslands (count : ℕ) (draws : ℕ → ℚ × ℚ) : Finset Coord :=
  ((List.range count).foldl (fun acc _ =>
    let pick := scatterPick acc.1 draws acc.2 49
    (insert pick.1 acc.1, pick.2)) ((∅ : Finset Coord), 0)).1

/-- generateSafeIslands: the per-level safe-zone lookup table, plus the
starting zone that is always added; `draws` feeds the scattered-island
sampling on the levels that use it. -/
def generateSafeIslands (level : ℕ) (draws : ℕ → ℚ × ℚ) : Finset Coord :=
  (match level with
   | 1 | 2 | 3 => createCornerIslands ∪ createCenterCross
   | 4 => setGreenPerimeter
   | 5 | 6 => createDiagonalIslands ∪ createCornerIslands
   | 7 => createScatteredIslands 6 draws
   | 8 => createCornerIslands
   | 9 => createDiagonalIslands ∪ createScatteredIslands 4 draws
   | 10 => createScatteredIslands 5 draws
   | 11 => createCornerIslands ∪ createScatteredIslands 3 draws
   | 12 => createCornerIslands
   | _ => createCornerIslands ∪ createCenterCross) ∪ createStartingZone

/-- spawnCollectibles: up to 300 rejection-sampling attempts to place the
level's collectible count, excluding safe islands, already-placed
collectibles and the spawn exclusion box; `draws attempt` gives the two
random numbers of that attempt.  (For a level index outside the table the
source compares against an undefined count and places nothing; `getD 0`
models that.) -/
def spawnCollectibles (safe : Finset Coord) (level : ℕ)
    (draws : ℕ → ℚ × ℚ) : Finset Coord :=
  let numCollectibles := POINTS_PER_LEVEL.getD (level - 1) 0
  (List.range 300).foldl (fun acc attempt =>
    if acc.card < numCollectibles then
      let d := draws attempt
      let x : ℤ := ⌊d.1 * (WIDTH : ℚ)⌋
      let z : ℤ := ⌊d.2 * ((HEIGHT : ℚ) - 3)⌋
      if ((x, z) : Coord) ∉ safe ∧ ((x, z) : Coord) ∉ acc ∧
          ¬(5 ≤ x ∧ x ≤ 7 ∧ 13 ≤ z ∧ z ≤ 15) then
        insert ((x, z) : Coord) acc
      else acc
    else acc) ∅

/-- addHorizontalBar: `r` is the `Math.random()` draw for the phase
offset; the row is clamped to HEIGHT - 4. -/
def addHorizontalBar (row : ℤ) (width : ℕ) (direction : ℤ) (speed r : ℚ) :
    Pattern :=
  Pattern.horizontal (min row (HEIGHT - 4)) width direction (r * (WIDTH : ℚ))
    speed

/-- addVerticalBar: `r` is the `Math.random()` draw for the phase offset;
the column is clamped to WIDTH - 1. -/
def addVerticalBar (col : ℤ) (height : ℕ) (direction : ℤ) (speed r : ℚ) :
    Pattern :=
  Pattern.vertical (min col (WIDTH - 1)) height direction (r * (HEIGHT : ℚ))
    speed

/-- addRollingX: `count` X shapes of size 3 spaced `spacing` apart. -/
def addRollingX (count : ℕ) (speed spacing : ℚ) : List Pattern :=
  (List.range count).map (fun (i : ℕ) => Pattern.rolling_x ((i : ℚ) * spacing) speed 3)

/-- addRowMarch. -/
def addRowMarch (speed : ℚ) : Pattern := Pattern.row_march 2 speed

/-- addColumnMarch. -/
def addColumnMarch (speed : ℚ) : Pattern := Pattern.column_march 2 speed

/-- addRotatingCross: arm length 5. -/
def addRotatingCross (speed : ℚ) : Pattern := Pattern.rotating_cross 5 speed

/-- addSpiralPattern. -/
def addSpiralPattern (speed : ℚ) : Pattern := Pattern.spiral speed

/-- addDiagonalSweep: width 2, zero phase offset. -/
def addDiagonalSweep (direction : ℤ) (speed : ℚ) : Pattern :=
  Pattern.diagonal_sweep direction 2 speed 0

/-- addPulsingGrayTiles. -/
def addPulsingGrayTiles (interval : ℚ) : Pattern := Pattern.gray_pulse interval

/-- generateLavaPatterns: the fixed per-level hazard script; `rnd k` is
the k-th `Math.random()` draw consumed while building that level's list
(one per bar, in call order).  Levels outside 1..12 fall through the
switch and leave the list empty. -/
def generateLavaPatterns (level : ℕ) (rnd : ℕ → ℚ) : List Pattern :=
  match level with
  | 1 => [addHorizontalBar 4 3 1 (5 / 10) (rnd 0),
          addHorizontalBar 9 3 (-1) (5 / 10) (rnd 1)]
  | 2 => [addHorizontalBar 3 3 1 (6 / 10) (rnd 0),
          addHorizontalBar 10 3 (-1) (6 / 10) (rnd 1),
          addVerticalBar 5 3 1 (5 / 10) (rnd 2)]
  | 3 => [addHorizontalBar 3 4 1 (7 / 10) (rnd 0),
          addHorizontalBar 8 4 (-1) (7 / 10) (rnd 1),
          addVerticalBar 3 4 1 (6 / 10) (rnd 2),
          addVerticalBar 8 4 (-1) (6 / 10) (rnd 3)]
  | 4 => addRollingX 3 (6 / 10) 6
  | 5 => [addRowMarch (8 / 10), addHorizontalBar 5 3 1 (8 / 10) (rnd 0)]
  | 6 => [addRowMarch (9 / 10), addColumnMarch (7 / 10)]
  | 7 => [addPulsingGrayTiles 2400]
  | 8 => [addRotatingCross (3 / 10), addHorizontalBar 2 2 1 (7 / 10) (rnd 0),
          addHorizontalBar 10 2 (-1) (7 / 10) (rnd 1)]
  | 9 => [addSpiralPattern (4 / 10), addVerticalBar 4 2 1 (7 / 10) (rnd 0),
          addVerticalBar 7 2 (-1) (7 / 10) (rnd 1)]
  | 10 => [addPulsingGrayTiles 1600, addHorizontalBar 3 2 1 (7 / 10) (rnd 0),
           addHorizontalBar 9 2 (-1) (7 / 10) (rnd 1)]
  | 11 => [addRowMarch (7 / 10), addColumnMarch (5 / 10),
           addHorizontalBar 5 2 1 (8 / 10) (rnd 0)]
  | 12 => [addRotatingCross (35 / 100), addDiagonalSweep 1 (6 / 10),
           addHorizontalBar 2 2 1 (8 / 10) (rnd 0),
           addHorizontalBar 10 2 (-1) (8 / 10) (rnd 1),
           addVerticalBar 3 2 1 (7 / 10) (rnd 2),
           addVerticalBar 8 2 (-1) (7 / 10) (rnd 3)]
  | _ => []

/-- initializeLevel: regenerate the per-level layout (safe islands, then
collectibles, then patterns), start the score-decay timer at the full
score, reset the player to the spawn cell and begin play. -/
def initializeLevel (now : ℚ) (islDraws collDraws : ℕ → ℚ × ℚ)
    (patDraws : ℕ → ℚ) (s : GState) : GState :=
  let safe := generateSafeIslands s.currentLevel islDraws
  let coll := spawnCollectibles safe s.currentLevel collDraws
  { s with safeIslands := safe, collectibleTiles := coll,
           lavaPatterns := generateLavaPatterns s.currentLevel patDraws,
           levelStartTime := now, currentLevelScore := maxLevelScore,
           playerPosition := (6, 14), isPlaying := true }

/-- A cell of the full 12×16 grid. -/
def inGrid (c : Coord) : Prop :=
  0 ≤ c.1 ∧ c.1 < WIDTH ∧ 0 ≤ c.2 ∧ c.2 < HEIGHT

instance (c : Coord) : Decidable (inGrid c) := by unfold inGrid; infer_instance

/-- Clamp, as written in the spec's decay formula. -/
def clampQ (q lo hi : ℚ) : ℚ := max lo (min q hi)

/-- Modelled from the spec: the single-expression potential-score formula
`round(max * (1 - clamp((elapsed - grace) / decayWindow, 0, 1)))`, floored
at 1. -/
def specPotentialScore (elapsed : ℚ) : ℤ :=
  max 1 (jsRound ((maxLevelScore : ℚ) *
    (1 - clampQ ((elapsed - gracePeriod) / scoreDecayTime) 0 1)))

/-- A concrete mid-level state used to instantiate theorems: level 1, 3
lives, playing, player at the spawn cell. -/
def demoState : GState :=
  { currentLevel := 1, totalScore := 0, livesRemaining := 3,
    isPaused := false, isGameOver := false, isPlaying := true,
    isCountingDown := false, playerPosition := (6, 14),
    lavaTiles := ∅, collectibleTiles := ∅, safeIslands := ∅,
    isHopping := false, hopStartTime := 0, hopEndPos := (6, 14),
    lavaPatterns := [], invincible := false, invincibleUntil := 0,
    levelStartTime := 0, currentLevelScore := 10,
    screen := Screen.noScreen, pendingLevelComplete := none }

lemma collectItem_livesRemaining (pos : Coord) (s : GState) :
    (collectItem pos s).livesRemaining = s.livesRemaining := by
  simp only [collectItem]; split_ifs <;> rfl

lemma collectItem_safeIslands (pos : Coord) (s : GState) :
    (collectItem pos s).safeIslands = s.safeIslands := by
  simp only [collectItem]; split_ifs <;> rfl

lemma collectItem_playerPosition (pos : Coord) (s : GState) :
    (collectItem pos s).playerPosition = s.playerPosition := by
  simp only [collectItem]; split_ifs <;> rfl

lemma checkLavaCollision_livesRemaining_of_safe (now : ℚ) (s : GState)
    (h : s.playerPosition ∈ s.safeIslands) :
    (checkLavaCollision now s).livesRemaining = s.livesRemaining := by
  unfold checkLavaCollision
  split_ifs with h1 h2 h3 <;> first | rfl | exact absurd h h2

/-- C3.  Collision gating: while invincible, hopping or counting down, the
collision check is a no-op, so the playerHit path it would trigger cannot
decrement lives. -/
theorem collision_gated_no_life_loss (now : ℚ) (s : GState)
    (h : s.invincible = true ∨ s.isHopping = true ∨ s.isCountingDown = true) :
    checkLavaCollision now s = s ∧
    (checkLavaCollision now s).livesRemaining = s.livesRemaining := by
  have hgate : (s.isHopping || s.invincible || s.isCountingDown) = true := by
    rcases h with h | h | h <;> simp [h]
  constructor
  · unfold checkLavaCollision; rw [if_pos hgate]
  · unfold checkLavaCollision; rw [if_pos hgate]

/-- Witness for C3 at a concrete invincible state. -/
theorem collision_gated_no_life_loss_witness :
    checkLavaCollision 0 { demoState with invincible := true } =
      { demoState with invincible := true } ∧
    (checkLavaCollision 0 { demoState with invincible := true }).livesRemaining =
      ({ demoState with invincible := true } : GState).livesRemaining :=
  collision_gated_no_life_loss 0 _ (Or.inl rfl)

/-- C4.  A player standing on a safe island never loses a life, neither in
the per-tick collision check nor at hop completion, whatever the hazard
occupancy set contains. -/
theorem safe_island_shields_player (now : ℚ) (s : GState)
    (h : s.playerPosition ∈ s.safeIslands) :
    (checkLavaCollision now s).livesRemaining = s.livesRemaining ∧
    (updateHopAnimation now s).livesRemaining = s.livesRemaining ∧
    (∀ (env : MathEnv) (rnd : ℕ → ℚ × ℚ),
      (updateLavaPatterns env rnd now s).livesRemaining = s.livesRemaining) := by
  refine ⟨checkLavaCollision_livesRemaining_of_safe now s h, ?_, ?_⟩
  have hgen : ∀ s1 : GState, s1.playerPosition ∈ s1.safeIslands →
      (checkLavaCollision now (collectItem s1.playerPosition s1)).livesRemaining
        = s1.livesRemaining := by
    intro s1 h1
    have hpos : (collectItem s1.playerPosition s1).playerPosition ∈
        (collectItem s1.playerPosition s1).safeIslands := by
      rw [collectItem_playerPosition, collectItem_safeIslands]
      exact h1
    calc (checkLavaCollision now (collectItem s1.playerPosition s1)).livesRemaining
        = (collectItem s1.playerPosition s1).livesRemaining :=
          checkLavaCollision_livesRemaining_of_safe now _ hpos
      _ = s1.livesRemaining := collectItem_livesRemaining _ _
  · simp only [updateHopAnimation]
    split_ifs with h1 h2
    · rfl
    · exact hgen { s with isHopping := false } h
    · rfl
  · intro env rnd
    simp only [updateLavaPatterns]
    exact checkLavaCollision_livesRemaining_of_safe now _ h

/-- Witness for C4 at a concrete state on a safe island. -/
theorem safe_island_shields_player_witness :
    (checkLavaCollision 7
      { demoState with safeIslands := {((6 : ℤ), (14 : ℤ))},
                       lavaTiles := {((6 : ℤ), (14 : ℤ))} }).livesRemaining =
      ({ demoState with safeIslands := {((6 : ℤ), (14 : ℤ))},
                        lavaTiles := {((6 : ℤ), (14 : ℤ))} } : GState).livesRemaining ∧
    (updateHopAnimation 7
      { demoState with safeIslands := {((6 : ℤ), (14 : ℤ))},
                       lavaTiles := {((6 : ℤ), (14 : ℤ))} }).livesRemaining =
      ({ demoState with safeIslands := {((6 : ℤ), (14 : ℤ))},
                        lavaTiles := {((6 : ℤ), (14 : ℤ))} } : GState).livesRemaining ∧
    (∀ (env : MathEnv) (rnd : ℕ → ℚ × ℚ),
      (updateLavaPatterns env rnd 7
        { demoState with safeIslands := {((6 : ℤ), (14 : ℤ))},
                         lavaTiles := {((6 : ℤ), (14 : ℤ))} }).livesRemaining =
        ({ demoState with safeIslands := {((6 : ℤ), (14 : ℤ))},
                          lavaTiles := {((6 : ℤ), (14 : ℤ))} } :
          GState).livesRemaining) :=
  safe_island_shields_player 7 _ (by decide)

/-- C5.  The per-tick potential score equals the spec's clamp-and-round
decay formula at every elapsed time, is non-increasing in elapsed time,
stays at the full score throughout the grace period and never drops below
1. -/
theorem score_decay_matches_spec (e1 e2 : ℚ) (h : e1 ≤ e2) :
    currentScoreAt e1 = specPotentialScore e1 ∧
    currentScoreAt e2 ≤ currentScoreAt e1 ∧
    (e1 ≤ gracePeriod → currentScoreAt e1 = maxLevelScore) ∧
    1 ≤ currentScoreAt e1 ∧
    (∀ (now : ℚ) (s : GState), s.isPlaying = true → s.isPaused = false →
      (updateTimeBasedScore now s).currentLevelScore =
        currentScoreAt (now - s.levelStartTime)) := by
  have hcode : ∀ e : ℚ, currentScoreAt e = specPotentialScore e := by
    intro e
    unfold currentScoreAt specPotentialScore clampQ gracePeriod scoreDecayTime
      maxLevelScore
    split_ifs with hg
    · have hq : (e - 10000) / 20000 ≤ 0 := by
        apply div_nonpos_of_nonpos_of_nonneg <;> linarith
      have hmin : min ((e - 10000) / 20000) 1 = (e - 10000) / 20000 := by
        apply min_eq_left; linarith
      rw [hmin, max_eq_left hq]
      norm_num [jsRound]
    · have hq : 0 < (e - 10000) / 20000 := by
        apply div_pos <;> linarith
      have hmin : 0 ≤ min ((e - 10000) / 20000) 1 := by
        apply le_min <;> linarith
      rw [max_eq_right hmin]
  have hmono : ∀ a b : ℚ, a ≤ b → specPotentialScore b ≤ specPotentialScore a := by
    intro a b hab
    unfold specPotentialScore clampQ jsRound
    apply max_le_max le_rfl
    apply Int.floor_le_floor
    have hc : max 0 (min ((a - gracePeriod) / scoreDecayTime) 1) ≤
        max 0 (min ((b - gracePeriod) / scoreDecayTime) 1) := by
      apply max_le_max le_rfl
      apply min_le_min _ le_rfl
      exact (div_le_div_iff_of_pos_right
        (by norm_num [scoreDecayTime] : (0:ℚ) < scoreDecayTime)).2 (by linarith)
    have hmul : (maxLevelScore : ℚ) *
        (1 - max 0 (min ((b - gracePeriod) / scoreDecayTime) 1)) ≤
        (maxLevelScore : ℚ) *
        (1 - max 0 (min ((a - gracePeriod) / scoreDecayTime) 1)) := by
      apply mul_le_mul_of_nonneg_left _ (by norm_num [maxLevelScore])
      linarith
    linarith
  refine ⟨hcode e1, ?_, ?_, ?_, ?_⟩
  · rw [hcode e1, hcode e2]; exact hmono e1 e2 h
  · intro hg; unfold currentScoreAt; rw [if_pos hg]
  · rw [hcode e1]; unfold specPotentialScore; exact le_max_left 1 _
  · intro now s hp hpause
    simp only [updateTimeBasedScore, hp, hpause, Bool.not_true, Bool.false_or,
      Bool.or_self, if_false]
    rfl

/-- Witness for C5 at elapsed times 0 and 25000 ms. -/
theorem score_decay_matches_spec_witness :
    currentScoreAt 0 = specPotentialScore 0 ∧
    currentScoreAt 25000 ≤ currentScoreAt 0 ∧
    ((0 : ℚ) ≤ gracePeriod → currentScoreAt 0 = maxLevelScore) ∧
    1 ≤ currentScoreAt 0 ∧
    (∀ (now : ℚ) (s : GState), s.isPlaying = true → s.isPaused = false →
      (updateTimeBasedScore now s).currentLevelScore =
        currentScoreAt (now - s.levelStartTime)) :=
  score_decay_matches_spec 0 25000 (by norm_num)

/-- C6.  A unit move request is a complete no-op exactly when a hop is in
progress, the game is paused, not playing, or counting down, or the target
cell leaves the 12×16 grid; an accepted move immediately moves the
authoritative grid position to the target and starts a hop (whose fixed
duration constant is 100 ms). -/
theorem move_request_accept_reject (now : ℚ) (dx dz : ℤ) (s : GState)
    (hunit : |dx| + |dz| = 1) :
    (movePlayer now dx dz s = s ↔
      (s.isHopping = true ∨ s.isPaused = true ∨ s.isPlaying = false ∨
       s.isCountingDown = true ∨
       s.playerPosition.1 + dx < 0 ∨ WIDTH ≤ s.playerPosition.1 + dx ∨
       s.playerPosition.2 + dz < 0 ∨ HEIGHT ≤ s.playerPosition.2 + dz)) ∧
    (¬(s.isHopping = true ∨ s.isPaused = true ∨ s.isPlaying = false ∨
       s.isCountingDown = true ∨
       s.playerPosition.1 + dx < 0 ∨ WIDTH ≤ s.playerPosition.1 + dx ∨
       s.playerPosition.2 + dz < 0 ∨ HEIGHT ≤ s.playerPosition.2 + dz) →
      (movePlayer now dx dz s).playerPosition =
        (s.playerPosition.1 + dx, s.playerPosition.2 + dz) ∧
      (movePlayer now dx dz s).isHopping = true ∧
      (movePlayer now dx dz s).hopStartTime = now ∧
      (movePlayer now dx dz s).hopEndPos =
        (s.playerPosition.1 + dx, s.playerPosition.2 + dz) ∧
      HOP_DURATION = 100) := by
  by_cases hgate : (s.isHopping || s.isPaused || !s.isPlaying || s.isCountingDown) = true
  · have hrej : s.isHopping = true ∨ s.isPaused = true ∨ s.isPlaying = false ∨
        s.isCountingDown = true := by
      simp only [Bool.or_eq_true, Bool.not_eq_true'] at hgate
      tauto
    have hmp : movePlayer now dx dz s = s := by
      simp only [movePlayer]; rw [if_pos hgate]
    rw [hmp]
    exact ⟨⟨fun _ => by tauto, fun _ => rfl⟩, fun hne => absurd (by tauto) hne⟩
  · have hflags : ¬(s.isHopping = true) ∧ ¬(s.isPaused = true) ∧
        ¬(s.isPlaying = false) ∧ ¬(s.isCountingDown = true) := by
      simp only [Bool.or_eq_true, Bool.not_eq_true'] at hgate
      tauto
    by_cases hob : s.playerPosition.1 + dx < 0 ∨ WIDTH ≤ s.playerPosition.1 + dx ∨
        s.playerPosition.2 + dz < 0 ∨ HEIGHT ≤ s.playerPosition.2 + dz
    · have hmp : movePlayer now dx dz s = s := by
        simp only [movePlayer]; rw [if_neg hgate, if_pos hob]
      rw [hmp]
      exact ⟨⟨fun _ => by tauto, fun _ => rfl⟩, fun hne => absurd (by tauto) hne⟩
    · have hmv : movePlayer now dx dz s =
          { s with isHopping := true, hopStartTime := now,
                   hopEndPos := (s.playerPosition.1 + dx, s.playerPosition.2 + dz),
                   playerPosition := (s.playerPosition.1 + dx, s.playerPosition.2 + dz) } := by
        simp only [movePlayer]; rw [if_neg hgate, if_neg hob]
      constructor
      · constructor
        · intro heq
          rw [hmv] at heq
          have hh : true = s.isHopping := congrArg GState.isHopping heq
          exact absurd hh.symm hflags.1
        · intro hcontra
          rcases hcontra with hc | hc | hc | hc | hc
          · exact absurd hc hflags.1
          · exact absurd hc hflags.2.1
          · exact absurd hc hflags.2.2.1
          · exact absurd hc hflags.2.2.2
          · exact absurd hc hob
      · intro _
        rw [hmv]
        exact ⟨rfl, rfl, rfl, rfl, rfl⟩

/-- Witness for C6: an accepted upward move from the spawn cell. -/
theorem move_request_accept_reject_witness :
    (movePlayer 5 0 (-1) demoState = demoState ↔
      (demoState.isHopping = true ∨ demoState.isPaused = true ∨
       demoState.isPlaying = false ∨ demoState.isCountingDown = true ∨
       demoState.playerPosition.1 + 0 < 0 ∨
       WIDTH ≤ demoState.playerPosition.1 + 0 ∨
       demoState.playerPosition.2 + (-1) < 0 ∨
       HEIGHT ≤ demoState.playerPosition.2 + (-1))) ∧
    (¬(demoState.isHopping = true ∨ demoState.isPaused = true ∨
       demoState.isPlaying = false ∨ demoState.isCountingDown = true ∨
       demoState.playerPosition.1 + 0 < 0 ∨
       WIDTH ≤ demoState.playerPosition.1 + 0 ∨
       demoState.playerPosition.2 + (-1) < 0 ∨
       HEIGHT ≤ demoState.playerPosition.2 + (-1)) →
      (movePlayer 5 0 (-1) demoState).playerPosition =
        (demoState.playerPosition.1 + 0, demoState.playerPosition.2 + (-1)) ∧
      (movePlayer 5 0 (-1) demoState).isHopping = true ∧
      (movePlayer 5 0 (-1) demoState).hopStartTime = 5 ∧
      (movePlayer 5 0 (-1) demoState).hopEndPos =
        (demoState.playerPosition.1 + 0, demoState.playerPosition.2 + (-1)) ∧
      HOP_DURATION = 100) :=
  move_request_accept_reject 5 0 (-1) demoState (by decide)

/-- C7.  A non-ignored hit removes exactly one life; at zero lives the game
ends, otherwise the player respawns at (6, 14) with the hop cleared and
invincibility until now + 2500 ms; lives are reset to the starting count
only by the next-level transition, never by a mid-level respawn. -/
theorem hit_decrements_and_respawns (now : ℚ) (s : GState)
    (hinv : s.invincible = false) (hlives : 1 ≤ s.livesRemaining) :
    (playerHit now s).livesRemaining = s.livesRemaining - 1 ∧
    (s.livesRemaining = 1 →
      (playerHit now s).isGameOver = true ∧ (playerHit now s).isPlaying = false) ∧
    (2 ≤ s.livesRemaining →
      (playerHit now s).playerPosition = (6, 14) ∧
      (playerHit now s).isHopping = false ∧
      (playerHit now s).invincible = true ∧
      (playerHit now s).invincibleUntil = now + 2500) ∧
    (∀ s2 : GState, (nextLevel s2).livesRemaining = START_LIVES) ∧
    (∀ t : ℚ, ∀ s2 : GState,
      (respawnPlayer t s2).livesRemaining = s2.livesRemaining) := by
  have hb : s.invincible ≠ true := by rw [hinv]; exact Bool.false_ne_true
  unfold playerHit
  rw [if_neg hb]
  by_cases hz : s.livesRemaining - 1 ≤ 0
  · have h1 : s.livesRemaining = 1 := by omega
    rw [if_pos hz]
    exact ⟨rfl, fun _ => ⟨rfl, rfl⟩, fun h2 => absurd h1 (by omega),
      fun s2 => rfl, fun t s2 => rfl⟩
  · rw [if_neg hz]
    exact ⟨rfl, fun h1 => absurd h1 (by omega), fun _ => ⟨rfl, rfl, rfl, rfl⟩,
      fun s2 => rfl, fun t s2 => rfl⟩

/-- Witness for C7 at a concrete 3-lives state. -/
theorem hit_decrements_and_respawns_witness :
    (playerHit 4 demoState).livesRemaining = demoState.livesRemaining - 1 ∧
    (demoState.livesRemaining = 1 →
      (playerHit 4 demoState).isGameOver = true ∧
      (playerHit 4 demoState).isPlaying = false) ∧
    (2 ≤ demoState.livesRemaining →
      (playerHit 4 demoState).playerPosition = (6, 14) ∧
      (playerHit 4 demoState).isHopping = false ∧
      (playerHit 4 demoState).invincible = true ∧
      (playerHit 4 demoState).invincibleUntil = 4 + 2500) ∧
    (∀ s2 : GState, (nextLevel s2).livesRemaining = START_LIVES) ∧
    (∀ t : ℚ, ∀ s2 : GState,
      (respawnPlayer t s2).livesRemaining = s2.livesRemaining) :=
  hit_decrements_and_respawns 4 demoState (by decide) (by decide)

/-- C8.  A pickup removes exactly the visited cell; when that empties the
set, `max 1 currentLevelScore` is added to the total and the
level-complete transition is scheduled with a 300 ms delay; the transition
shows the win screen exactly when the completed level is the last one. -/
theorem collectible_pickup_final (pos : Coord) (s : GState)
    (h : pos ∈ s.collectibleTiles) :
    (collectItem pos s).collectibleTiles = s.collectibleTiles.erase pos ∧
    (s.collectibleTiles.erase pos ≠ ∅ →
      (collectItem pos s).totalScore = s.totalScore ∧
      (collectItem pos s).pendingLevelComplete = s.pendingLevelComplete) ∧
    (s.collectibleTiles.erase pos = ∅ →
      (collectItem pos s).totalScore = s.totalScore + max 1 s.currentLevelScore ∧
      (collectItem pos s).pendingLevelComplete = some 300) ∧
    (∀ s2 : GState, (levelComplete s2).isPlaying = false ∧
      (levelComplete s2).screen =
        (if TOTAL_LEVELS ≤ s2.currentLevel then Screen.winScreen
         else Screen.levelCompleteScreen)) := by
  simp only [collectItem]
  rw [if_pos h]
  by_cases hempty : s.collectibleTiles.erase pos = ∅
  · have hcard : (s.collectibleTiles.erase pos).card = 0 :=
      Finset.card_eq_zero.2 hempty
    simp only [hcard, if_pos rfl]
    exact ⟨rfl, fun hne => absurd hempty hne, fun _ => ⟨rfl, rfl⟩,
      fun s2 => ⟨rfl, rfl⟩⟩
  · have hcard : (s.collectibleTiles.erase pos).card ≠ 0 :=
      fun hc => hempty (Finset.card_eq_zero.1 hc)
    rw [if_neg hcard]
    exact ⟨rfl, fun _ => ⟨rfl, rfl⟩, fun he => absurd he hempty,
      fun s2 => ⟨rfl, rfl⟩⟩

/-- Witness for C8: picking up the last collectible. -/
theorem collectible_pickup_final_witness :
    (collectItem (6, 13)
      { demoState with collectibleTiles := {((6 : ℤ), (13 : ℤ))} }).collectibleTiles =
      ({ demoState with collectibleTiles := {((6 : ℤ), (13 : ℤ))} } :
        GState).collectibleTiles.erase (6, 13) ∧
    (({ demoState with collectibleTiles := {((6 : ℤ), (13 : ℤ))} } :
        GState).collectibleTiles.erase (6, 13) ≠ ∅ →
      (collectItem (6, 13)
        { demoState with collectibleTiles := {((6 : ℤ), (13 : ℤ))} }).totalScore =
        ({ demoState with collectibleTiles := {((6 : ℤ), (13 : ℤ))} } :
          GState).totalScore ∧
      (collectItem (6, 13)
        { demoState with
            collectibleTiles := {((6 : ℤ), (13 : ℤ))} }).pendingLevelComplete =
        ({ demoState with collectibleTiles := {((6 : ℤ), (13 : ℤ))} } :
          GState).pendingLevelComplete) ∧
    (({ demoState with collectibleTiles := {((6 : ℤ), (13 : ℤ))} } :
        GState).collectibleTiles.erase (6, 13) = ∅ →
      (collectItem (6, 13)
        { demoState with collectibleTiles := {((6 : ℤ), (13 : ℤ))} }).totalScore =
        ({ demoState with collectibleTiles := {((6 : ℤ), (13 : ℤ))} } :
          GState).totalScore +
          max 1 ({ demoState with collectibleTiles := {((6 : ℤ), (13 : ℤ))} } :
            GState).currentLevelScore ∧
      (collectItem (6, 13)
        { demoState with
            collectibleTiles := {((6 : ℤ), (13 : ℤ))} }).pendingLevelComplete =
        some 300) ∧
    (∀ s2 : GState, (levelComplete s2).isPlaying = false ∧
      (levelComplete s2).screen =
        (if TOTAL_LEVELS ≤ s2.currentLevel then Screen.winScreen
         else Screen.levelCompleteScreen)) :=
  collectible_pickup_final (6, 13) _ (by decide)

/-- C10.  The authoritative player position is always a cell of the 12×16
grid: level initialization and respawn place it at the spawn cell, and a
move request (accepted or rejected) preserves the invariant. -/
theorem player_position_always_in_grid :
    (∀ (now : ℚ) (isl coll : ℕ → ℚ × ℚ) (pat : ℕ → ℚ) (s : GState),
      inGrid (initializeLevel now isl coll pat s).playerPosition) ∧
    (∀ (now : ℚ) (dx dz : ℤ) (s : GState), inGrid s.playerPosition →
      inGrid (movePlayer now dx dz s).playerPosition) ∧
    (∀ (now : ℚ) (s : GState), inGrid (respawnPlayer now s).playerPosition) ∧
    (∀ (now : ℚ) (s : GState), inGrid s.playerPosition →
      inGrid (playerHit now s).playerPosition) := by
  have hspawn : inGrid ((6 : ℤ), (14 : ℤ)) := by decide
  refine ⟨fun now isl coll pat s => hspawn, ?_, fun now s => hspawn, ?_⟩
  · intro now dx dz s hs
    simp only [movePlayer]
    split_ifs with h1 h2
    · exact hs
    · exact hs
    · push_neg at h2
      exact ⟨h2.1, h2.2.1, h2.2.2.1, h2.2.2.2⟩
  · intro now s hs
    simp only [playerHit]
    split_ifs with h1 h2
    · exact hs
    · exact hs
    · exact hspawn

/-- Witness for C10: the move-preservation conjunct at a concrete state. -/
theorem player_position_always_in_grid_witness :
    inGrid (movePlayer 0 1 0 demoState).playerPosition :=
  player_position_always_in_grid.2.1 0 1 0 demoState (by decide)

/-- A trig environment with zero sine and cosine (level 1 evaluates no
trig, so any values serve). -/
def env0 : MathEnv := { cos := fun _ => 0, sin := fun _ => 0, pi := 0 }

/-- A reachable level-1 tick state: the deterministic level-1 safe-island
layout, six legally placed collectibles, and the level-1 hazard script
with both random bar offsets drawn as 0. -/
def cexState : GState :=
  { demoState with
    safeIslands := generateSafeIslands 1 (fun _ => (0, 0)),
    collectibleTiles :=
      {((0 : ℤ), (0 : ℤ)), ((1 : ℤ), (0 : ℤ)), ((2 : ℤ), (0 : ℤ)),
       ((3 : ℤ), (0 : ℤ)), ((4 : ℤ), (0 : ℤ)), ((5 : ℤ), (0 : ℤ))},
    lavaPatterns := generateLavaPatterns 1 (fun _ => 0) }

lemma checkLavaCollision_lavaTiles (now : ℚ) (s : GState) :
    (checkLavaCollision now s).lavaTiles = s.lavaTiles := by
  simp only [checkLavaCollision, playerHit, gameOver, respawnPlayer]
  split_ifs <;> rfl

lemma checkLavaCollision_safeIslands (now : ℚ) (s : GState) :
    (checkLavaCollision now s).safeIslands = s.safeIslands := by
  simp only [checkLavaCollision, playerHit, gameOver, respawnPlayer]
  split_ifs <;> rfl

lemma checkLavaCollision_collectibleTiles (now : ℚ) (s : GState) :
    (checkLavaCollision now s).collectibleTiles = s.collectibleTiles := by
  simp only [checkLavaCollision, playerHit, gameOver, respawnPlayer]
  split_ifs <;> rfl

/-- Counterexample to C1: on level 1 at time 9000 ms the second horizontal
bar covers the safe-island cell (6, 9) (the center cross), and resolution
leaves that coordinate inside `lavaTiles` — the occupancy set itself is
not disjoint from `safeIslands`; only the applied tile states are
filtered. -/
theorem lava_set_meets_safe_islands :
    ((6 : ℤ), (9 : ℤ)) ∈
      (updateLavaPatterns env0 (fun _ => (0, 0)) 9000 cexState).lavaTiles ∧
    ((6 : ℤ), (9 : ℤ)) ∈
      (updateLavaPatterns env0 (fun _ => (0, 0)) 9000 cexState).safeIslands := by
  have hpats : cexState.lavaPatterns =
      [Pattern.horizontal 4 3 1 0 (5 / 10), Pattern.horizontal 9 3 (-1) 0 (5 / 10)] := by
    show generateLavaPatterns 1 (fun _ => 0) = _
    norm_num [generateLavaPatterns, addHorizontalBar, HEIGHT, WIDTH]
  have hbase : baseSpeedFor 1 = 900 := by
    norm_num [baseSpeedFor, BASE_SPEED, SPEED_DECREASE]
  have hbar2 : ((6 : ℤ), (9 : ℤ)) ∈
      updateHorizontalPattern 9000 900 9 3 (-1) 0 (5 / 10) := by
    have hcp : jsMod ((9000 : ℚ) / 900 * (5 / 10) + 0)
        ((WIDTH : ℚ) + ((3 : ℕ) : ℚ)) = 5 := by
      norm_num [jsMod, truncQ, WIDTH]
    have ht : Int.tmod 5 12 = 5 := by decide
    simp only [updateHorizontalPattern, hcp]
    rw [List.mem_toFinset, List.mem_filterMap]
    refine ⟨0, by decide, ?_⟩
    norm_num [WIDTH, ht]
  constructor
  · simp only [updateLavaPatterns]
    rw [checkLavaCollision_lavaTiles]
    have hmin9 : min (9 : ℤ) (HEIGHT - 4) = 9 := by norm_num [HEIGHT]
    have hmin4 : min (4 : ℤ) (HEIGHT - 4) = 4 := by norm_num [HEIGHT]
    have hzero : (0 : ℚ) * (WIDTH : ℚ) = 0 := by norm_num
    simp only [cexState, demoState, hbase, generateLavaPatterns,
      addHorizontalBar, hmin9, hmin4, hzero, List.enum, List.enumFrom,
      List.map_cons, List.map_nil, List.foldl_cons, List.foldl_nil,
      evalPattern]
    exact Finset.mem_union.2 (Or.inr hbar2)
  · simp only [updateLavaPatterns]
    rw [checkLavaCollision_safeIslands]
    show ((6 : ℤ), (9 : ℤ)) ∈ cexState.safeIslands
    decide

/-- C1 as amended: after every tick's resolution, the cells on which the
resolver actually applies the lava state (members of `lavaTiles` outside
`safeIslands` and `collectibleTiles`) are disjoint from both sets; the raw
`lavaTiles` set may keep coordinates of safe or collectible cells. -/
theorem applied_lava_disjoint (env : MathEnv) (rnd : ℕ → ℚ × ℚ) (time : ℚ)
    (s : GState) :
    appliedLava (updateLavaPatterns env rnd time s) ∩
      (updateLavaPatterns env rnd time s).safeIslands = ∅ ∧
    appliedLava (updateLavaPatterns env rnd time s) ∩
      (updateLavaPatterns env rnd time s).collectibleTiles = ∅ := by
  constructor <;>
  · apply Finset.eq_empty_of_forall_not_mem
    intro c hc
    rw [Finset.mem_inter, appliedLava, Finset.mem_filter] at hc
    tauto

/-- A trig environment whose sine is the constant 1, putting the gray
pulse in its on phase (the real `Math.sin` attains 1 at time
interval / 2). -/
def env1 : MathEnv := { cos := fun _ => 0, sin := fun _ => 1, pi := 355 / 113 }

set_option maxRecDepth 8000 in
/-- Counterexample to C9: with the pulse on, the grid cell (0, 15) is
neither a safe island nor a collectible, yet the gray pulse does not mark
it — the pattern only covers the playable sub-grid z below HEIGHT - 2,
never the whole grid. -/
theorem gray_pulse_misses_last_rows :
    0 < env1.sin (400 / 800 * env1.pi) ∧
    inGrid ((0 : ℤ), (15 : ℤ)) ∧
    ((0 : ℤ), (15 : ℤ)) ∉ (∅ : Finset Coord) ∧
    ((0 : ℤ), (15 : ℤ)) ∉ updateGrayPulse env1 ∅ ∅ 400 800 := by
  decide

lemma mem_playableCellList (c : Coord) :
    c ∈ playableCellList ↔ 0 ≤ c.1 ∧ c.1 < WIDTH ∧ 0 ≤ c.2 ∧ c.2 < HEIGHT - 2 := by
  unfold playableCellList
  simp only [List.mem_flatMap, List.mem_map, List.mem_range]
  constructor
  · rintro ⟨x, hx, z, hz, rfl⟩
    refine ⟨Int.ofNat_nonneg x, ?_, Int.ofNat_nonneg z, ?_⟩
    · have : (x : ℤ) < (WIDTH.toNat : ℤ) := by exact_mod_cast hx
      omega
    · have : (z : ℤ) < ((HEIGHT - 2).toNat : ℤ) := by exact_mod_cast hz
      omega
  · rintro ⟨h1, h2, h3, h4⟩
    refine ⟨c.1.toNat, ?_, c.2.toNat, ?_, ?_⟩
    · omega
    · omega
    · rw [Int.toNat_of_nonneg h1, Int.toNat_of_nonneg h3]

lemma mem_updateGrayPulse (env : MathEnv) (safe coll : Finset Coord)
    (time interval : ℚ) (c : Coord) :
    c ∈ updateGrayPulse env safe coll time interval ↔
      (0 < env.sin (time / interval * env.pi) ∧
       0 ≤ c.1 ∧ c.1 < WIDTH ∧ 0 ≤ c.2 ∧ c.2 < HEIGHT - 2 ∧
       c ∉ safe ∧ c ∉ coll) := by
  simp only [updateGrayPulse]
  split_ifs with h
  · rw [List.mem_toFinset, List.mem_filter]
    simp only [mem_playableCellList, decide_eq_true_eq]
    tauto
  · simp only [Finset.not_mem_empty, false_iff]
    tauto

/-- C9 as amended: the gray pulse is all-or-nothing over the playable
sub-grid (z below HEIGHT - 2): while the sine pulse is positive it marks
exactly the playable cells outside `safeIslands` and `collectibleTiles`,
and otherwise it marks nothing. -/
theorem gray_pulse_all_or_nothing (env : MathEnv) (safe coll : Finset Coord)
    (time interval : ℚ) (c : Coord) :
    c ∈ updateGrayPulse env safe coll time interval ↔
      (0 < env.sin (time / interval * env.pi) ∧
       0 ≤ c.1 ∧ c.1 < WIDTH ∧ 0 ≤ c.2 ∧ c.2 < HEIGHT - 2 ∧
       c ∉ safe ∧ c ∉ coll) :=
  mem_updateGrayPulse env safe coll time interval c


lemma mem_guard {α : Type} {Q : Prop} [Decidable Q] {v c : α}
    (h : (if Q then some v else none) = some c) : Q ∧ v = c := by
  split_ifs at h with hq
  exact ⟨hq, Option.some.inj h⟩

lemma mem_guard_list {α : Type} {Q : Prop} [Decidable Q] {v c : α}
    (h : c ∈ (if Q then [v] else [])) : Q ∧ v = c := by
  split_ifs at h with hq
  · rw [List.mem_singleton] at h; exact ⟨hq, h.symm⟩
  · exact absurd h (by simp)

lemma jsMod_nonneg {a b : ℚ} (ha : 0 ≤ a) (hb : 0 < b) : 0 ≤ jsMod a b := by
  have hdiv : 0 ≤ a / b := div_nonneg ha hb.le
  have htr : truncQ (a / b) = ⌊a / b⌋ := if_pos hdiv
  have hfr : jsMod a b = b * Int.fract (a / b) := by
    rw [jsMod, htr, Int.fract]
    field_simp
  rw [hfr]
  exact mul_nonneg hb.le (Int.fract_nonneg _)

lemma tmod_nonneg_lt {a b : ℤ} (ha : 0 ≤ a) (hb : 0 < b) :
    0 ≤ Int.tmod a b ∧ Int.tmod a b < b :=
  ⟨Int.tmod_nonneg b ha, Int.tmod_lt_of_pos a hb⟩

lemma lt_HEIGHT_of_lt_sub {z : ℤ} (h : z < HEIGHT - 2) : z < HEIGHT := by
  unfold HEIGHT at *; omega

lemma inGrid_of_sub {x z : ℤ} (hx : 0 ≤ x ∧ x < WIDTH)
    (hz : 0 ≤ z ∧ z < HEIGHT - 2) : inGrid (x, z) :=
  ⟨hx.1, hx.2, hz.1, lt_HEIGHT_of_lt_sub hz.2⟩

/-- Well-formedness of a pattern instance: the conditions under which its
evaluation can only emit in-bounds coordinates (the guarded pattern types
need none). -/
def PatOK : Pattern → Prop
  | Pattern.horizontal row _ _ _ _ => 0 ≤ row ∧ row < HEIGHT
  | Pattern.vertical col _ _ _ _ => 0 ≤ col ∧ col < WIDTH
  | Pattern.snake positions headX headZ _ _ _ _ =>
      (∀ c ∈ positions, 0 ≤ c.1 ∧ c.1 < WIDTH ∧ 0 ≤ c.2 ∧ c.2 < HEIGHT - 2) ∧
      (0 ≤ headX ∧ headX < WIDTH) ∧ (0 ≤ headZ ∧ headZ < HEIGHT - 2)
  | Pattern.blinker positions _ =>
      ∀ cp ∈ positions, 0 ≤ cp.1.1 ∧ cp.1.1 < WIDTH ∧ 0 ≤ cp.1.2
  | Pattern.row_march _ speed => 0 ≤ speed
  | Pattern.column_march _ speed => 0 ≤ speed
  | _ => True

lemma updateHorizontalPattern_inGrid {time baseSpeed : ℚ} {row : ℤ}
    {width : ℕ} {direction : ℤ} {offset speed : ℚ}
    (hrow : 0 ≤ row ∧ row < HEIGHT) :
    ∀ c ∈ updateHorizontalPattern time baseSpeed row width direction offset
      speed, inGrid c := by
  intro c hc
  simp only [updateHorizontalPattern, List.mem_toFinset, List.mem_filterMap,
    List.mem_range] at hc
  obtain ⟨i, hi, hsome⟩ := hc
  obtain ⟨hx, rfl⟩ := mem_guard hsome
  exact ⟨hx.1, hx.2, hrow.1, hrow.2⟩

lemma updateVerticalPattern_inGrid {time baseSpeed : ℚ} {col : ℤ}
    {height : ℕ} {direction : ℤ} {offset speed : ℚ}
    (hcol : 0 ≤ col ∧ col < WIDTH) :
    ∀ c ∈ updateVerticalPattern time baseSpeed col height direction offset
      speed, inGrid c := by
  intro c hc
  simp only [updateVerticalPattern, List.mem_toFinset, List.mem_filterMap,
    List.mem_range] at hc
  obtain ⟨i, hi, hsome⟩ := hc
  obtain ⟨hz, rfl⟩ := mem_guard hsome
  exact inGrid_of_sub hcol hz

lemma updateWavePattern_inGrid (env : MathEnv) {time baseSpeed : ℚ}
    {amplitude frequency : ℚ} {width : ℕ} {speed : ℚ} :
    ∀ c ∈ updateWavePattern env time baseSpeed amplitude frequency width
      speed, inGrid c := by
  intro c hc
  simp only [updateWavePattern, List.mem_toFinset, List.mem_flatMap,
    List.mem_filterMap, List.mem_range] at hc
  obtain ⟨x, hx, w, hw, hsome⟩ := hc
  obtain ⟨hz, rfl⟩ := mem_guard hsome
  refine inGrid_of_sub ⟨Int.ofNat_nonneg x, ?_⟩ hz
  unfold WIDTH at hx ⊢
  omega

lemma updateRingPattern_inGrid (env : MathEnv) {time : ℚ}
    {centerX centerZ : ℤ} {maxRadius speed : ℚ} :
    ∀ c ∈ updateRingPattern env time centerX centerZ maxRadius speed,
      inGrid c := by
  intro c hc
  simp only [updateRingPattern, List.mem_toFinset, List.mem_filterMap,
    List.mem_range] at hc
  obtain ⟨k, hk, hsome⟩ := hc
  obtain ⟨hb, rfl⟩ := mem_guard hsome
  exact inGrid_of_sub ⟨hb.1, hb.2.1⟩ ⟨hb.2.2.1, hb.2.2.2⟩

lemma updateBlinkerPattern_inGrid (env : MathEnv) {time : ℚ}
    {positions : List (Coord × ℚ)} {interval : ℚ}
    (hpos : ∀ cp ∈ positions, 0 ≤ cp.1.1 ∧ cp.1.1 < WIDTH ∧ 0 ≤ cp.1.2) :
    ∀ c ∈ updateBlinkerPattern env time positions interval, inGrid c := by
  intro c hc
  simp only [updateBlinkerPattern, List.mem_toFinset, List.mem_filterMap]
    at hc
  obtain ⟨cp, hcp, hsome⟩ := hc
  obtain ⟨hb, rfl⟩ := mem_guard hsome
  obtain ⟨h1, h2, h3⟩ := hpos cp hcp
  exact inGrid_of_sub ⟨h1, h2⟩ ⟨h3, hb.1⟩

lemma updateDiagonalSweep_inGrid {time baseSpeed : ℚ} {direction : ℤ}
    {width : ℕ} {speed : ℚ} :
    ∀ c ∈ updateDiagonalSweep time baseSpeed direction width speed,
      inGrid c := by
  intro c hc
  simp only [updateDiagonalSweep, List.mem_toFinset, List.mem_flatMap,
    List.mem_filterMap, List.mem_range] at hc
  obtain ⟨w, hw, i, hi, hsome⟩ := hc
  obtain ⟨hb, rfl⟩ := mem_guard hsome
  exact inGrid_of_sub ⟨hb.1, hb.2.1⟩ ⟨hb.2.2.1, hb.2.2.2⟩

lemma updateRowMarch_inGrid {time baseSpeed : ℚ} {width : ℕ} {speed : ℚ}
    (ht : 0 ≤ time) (hb : 0 < baseSpeed) (hs : 0 ≤ speed) :
    ∀ c ∈ updateRowMarch time baseSpeed width speed, inGrid c := by
  intro c hc
  simp only [updateRowMarch, List.mem_toFinset, List.mem_flatMap,
    List.mem_map, List.mem_range] at hc
  obtain ⟨w, hw, x, hx, rfl⟩ := hc
  have hprog : (0 : ℚ) ≤ time / (baseSpeed * (15 / 10)) * speed := by
    apply mul_nonneg _ hs
    apply div_nonneg ht
    positivity
  have hfl : (0 : ℤ) ≤ ⌊time / (baseSpeed * (15 / 10)) * speed⌋ :=
    Int.floor_nonneg.2 hprog
  have h14 : (0 : ℤ) < HEIGHT - 2 := by unfold HEIGHT; omega
  have hcr := tmod_nonneg_lt hfl h14
  have hrow := tmod_nonneg_lt
    (by omega : (0 : ℤ) ≤ Int.tmod ⌊time / (baseSpeed * (15 / 10)) * speed⌋
      (HEIGHT - 2) + (w : ℤ)) h14
  refine inGrid_of_sub ⟨Int.ofNat_nonneg x, ?_⟩ ⟨hrow.1, hrow.2⟩
  unfold WIDTH at hx ⊢
  omega

lemma updateColumnMarch_inGrid {time baseSpeed : ℚ} {width : ℕ} {speed : ℚ}
    (ht : 0 ≤ time) (hb : 0 < baseSpeed) (hs : 0 ≤ speed) :
    ∀ c ∈ updateColumnMarch time baseSpeed width speed, inGrid c := by
  intro c hc
  simp only [updateColumnMarch, List.mem_toFinset, List.mem_flatMap,
    List.mem_map, List.mem_range] at hc
  obtain ⟨w, hw, z, hz, rfl⟩ := hc
  have hprog : (0 : ℚ) ≤ time / (baseSpeed * (12 / 10)) * speed := by
    apply mul_nonneg _ hs
    apply div_nonneg ht
    positivity
  have hfl : (0 : ℤ) ≤ ⌊time / (baseSpeed * (12 / 10)) * speed⌋ :=
    Int.floor_nonneg.2 hprog
  have h12 : (0 : ℤ) < WIDTH := by unfold WIDTH; omega
  have hcc := tmod_nonneg_lt hfl h12
  have hcol := tmod_nonneg_lt
    (by omega : (0 : ℤ) ≤ Int.tmod ⌊time / (baseSpeed * (12 / 10)) * speed⌋
      WIDTH + (w : ℤ)) h12
  refine inGrid_of_sub ⟨hcol.1, hcol.2⟩ ⟨Int.ofNat_nonneg z, ?_⟩
  unfold HEIGHT at hz ⊢
  omega

lemma updateRotatingCross_inGrid (env : MathEnv) {time : ℚ} {armLength : ℕ}
    {speed : ℚ} :
    ∀ c ∈ updateRotatingCross env time armLength speed, inGrid c := by
  intro c hc
  simp only [updateRotatingCross, List.mem_toFinset, List.mem_flatMap,
    List.mem_append, List.mem_range] at hc
  obtain ⟨k, hk, hin⟩ := hc
  rcases hin with hin | hin <;>
  · obtain ⟨hb, rfl⟩ := mem_guard_list hin
    exact inGrid_of_sub ⟨hb.1, hb.2.1⟩ ⟨hb.2.2.1, hb.2.2.2⟩

lemma updateSpiralPattern_inGrid (env : MathEnv) {time : ℚ} {speed : ℚ} :
    ∀ c ∈ updateSpiralPattern env time speed, inGrid c := by
  intro c hc
  simp only [updateSpiralPattern, List.mem_toFinset, List.mem_filterMap,
    List.mem_range] at hc
  obtain ⟨k, hk, hsome⟩ := hc
  obtain ⟨hb, rfl⟩ := mem_guard hsome
  exact inGrid_of_sub ⟨hb.1, hb.2.1⟩ ⟨hb.2.2.1, hb.2.2.2⟩

lemma updateRollingX_inGrid {time baseSpeed : ℚ} {offset speed : ℚ}
    {size : ℕ} :
    ∀ c ∈ updateRollingX time baseSpeed offset speed size, inGrid c := by
  intro c hc
  simp only [updateRollingX, List.mem_toFinset, List.mem_flatMap,
    List.mem_append, List.mem_range] at hc
  obtain ⟨k, hk, hin⟩ := hc
  rcases hin with hin | hin <;>
  · obtain ⟨hb, rfl⟩ := mem_guard_list hin
    exact inGrid_of_sub ⟨hb.1, hb.2.1⟩ ⟨hb.2.2.1, hb.2.2.2⟩

lemma updateGrayPulse_inGrid (env : MathEnv) {safe coll : Finset Coord}
    {time interval : ℚ} :
    ∀ c ∈ updateGrayPulse env safe coll time interval, inGrid c := by
  intro c hc
  rw [mem_updateGrayPulse] at hc
  exact inGrid_of_sub ⟨hc.2.1, hc.2.2.1⟩ ⟨hc.2.2.2.1, hc.2.2.2.2.1⟩

lemma updateCheckerboardPulse_inGrid {safe coll : Finset Coord}
    {time interval : ℚ} :
    ∀ c ∈ updateCheckerboardPulse safe coll time interval, inGrid c := by
  intro c hc
  simp only [updateCheckerboardPulse, List.mem_toFinset, List.mem_filter]
    at hc
  have hp := (mem_playableCellList c).1 hc.1
  exact inGrid_of_sub ⟨hp.1, hp.2.1⟩ ⟨hp.2.2.1, hp.2.2.2⟩

lemma snake_positions_inGrid {positions : List Coord} {len : ℕ} {X Z : ℤ}
    {c : Coord}
    (hpos : ∀ a ∈ positions, 0 ≤ a.1 ∧ a.1 < WIDTH ∧ 0 ≤ a.2 ∧ a.2 < HEIGHT - 2)
    (hX1 : 0 ≤ X) (hX2 : X < WIDTH) (hZ : 0 ≤ Z)
    (hc : c ∈ ((((X, Z) : Coord) :: positions).take len).filterMap
      (fun a => if a.2 < HEIGHT - 2 then some a else none)) : inGrid c := by
  rw [List.mem_filterMap] at hc
  obtain ⟨a, ha, hsome⟩ := hc
  obtain ⟨ha2, rfl⟩ := mem_guard hsome
  rcases List.mem_cons.1 (List.take_subset _ _ ha) with heq | hmem
  · subst heq
    exact ⟨hX1, hX2, hZ, lt_HEIGHT_of_lt_sub ha2⟩
  · obtain ⟨h1, h2, h3, _⟩ := hpos a hmem
    exact ⟨h1, h2, h3, lt_HEIGHT_of_lt_sub ha2⟩

lemma updateSnakePattern_inGrid (r1 r2 : ℚ) {time : ℚ}
    {positions : List Coord} {headX headZ : ℤ} {direction : ℕ} {length : ℕ}
    {lastMoveTime speed : ℚ}
    (hpos : ∀ c ∈ positions, 0 ≤ c.1 ∧ c.1 < WIDTH ∧ 0 ≤ c.2 ∧ c.2 < HEIGHT - 2)
    (hx : 0 ≤ headX ∧ headX < WIDTH) (hz : 0 ≤ headZ ∧ headZ < HEIGHT - 2) :
    ∀ c ∈ (updateSnakePattern r1 r2 time positions headX headZ direction
      length lastMoveTime speed).2, inGrid c := by
  intro c hc
  simp only [updateSnakePattern] at hc
  split_ifs at hc
  all_goals rw [List.mem_toFinset] at hc
  all_goals first
    | (refine snake_positions_inGrid hpos ?_ ?_ ?_ hc <;> omega)
    | (rw [List.mem_filterMap] at hc
       obtain ⟨a, ha, hsome⟩ := hc
       obtain ⟨ha2, rfl⟩ := mem_guard hsome
       obtain ⟨g1, g2, g3, _⟩ := hpos a ha
       exact ⟨g1, g2, g3, lt_HEIGHT_of_lt_sub ha2⟩)

lemma evalPattern_inGrid (env : MathEnv) (safe coll : Finset Coord)
    (rnd : ℚ × ℚ) {time baseSpeed : ℚ} (ht : 0 ≤ time) (hb : 0 < baseSpeed)
    {p : Pattern} (hp : PatOK p) :
    ∀ c ∈ (evalPattern env safe coll rnd time baseSpeed p).2, inGrid c := by
  cases p with
  | horizontal row width direction offset speed =>
      exact updateHorizontalPattern_inGrid hp
  | vertical col height direction offset speed =>
      exact updateVerticalPattern_inGrid hp
  | wave amplitude frequency width speed => exact updateWavePattern_inGrid env
  | ring centerX centerZ maxRadius speed => exact updateRingPattern_inGrid env
  | snake positions headX headZ direction length lastMoveTime speed =>
      exact updateSnakePattern_inGrid rnd.1 rnd.2 hp.1 hp.2.1 hp.2.2
  | blinker positions interval => exact updateBlinkerPattern_inGrid env hp
  | diagonal_sweep direction width speed offset =>
      exact updateDiagonalSweep_inGrid
  | row_march width speed => exact updateRowMarch_inGrid ht hb hp
  | column_march width speed => exact updateColumnMarch_inGrid ht hb hp
  | rotating_cross armLength speed => exact updateRotatingCross_inGrid env
  | spiral speed => exact updateSpiralPattern_inGrid env
  | gray_pulse interval => exact updateGrayPulse_inGrid env
  | checkerboard_pulse interval => exact updateCheckerboardPulse_inGrid
  | rolling_x offset speed size => exact updateRollingX_inGrid

lemma mem_foldl_union {c : Coord} :
    ∀ (l : List (Pattern × Finset Coord)) (init : Finset Coord),
      c ∈ l.foldl (fun acc pr => acc ∪ pr.2) init ↔
        c ∈ init ∨ ∃ pr ∈ l, c ∈ pr.2 := by
  intro l
  induction l with
  | nil => intro init; simp
  | cons hd tl ih =>
      intro init
      rw [List.foldl_cons, ih]
      constructor
      · rintro (hin | ⟨pr, hpr, hc2⟩)
        · rcases Finset.mem_union.1 hin with h | h
          · exact Or.inl h
          · exact Or.inr ⟨hd, List.mem_cons_self hd tl, h⟩
        · exact Or.inr ⟨pr, List.mem_cons_of_mem hd hpr, hc2⟩
      · rintro (hin | ⟨pr, hpr, hc2⟩)
        · exact Or.inl (Finset.mem_union.2 (Or.inl hin))
        · rcases List.mem_cons.1 hpr with heq | htl
          · subst heq
            exact Or.inl (Finset.mem_union.2 (Or.inr hc2))
          · exact Or.inr ⟨pr, htl, hc2⟩

lemma generateLavaPatterns_PatOK (level : ℕ) (rnd : ℕ → ℚ) :
    ∀ p ∈ generateLavaPatterns level rnd, PatOK p := by
  have hH : ∀ (row : ℤ) (width : ℕ) (direction : ℤ) (speed r : ℚ), 0 ≤ row →
      PatOK (addHorizontalBar row width direction speed r) := by
    intro row width direction speed r h
    simp only [addHorizontalBar, PatOK]
    unfold HEIGHT
    omega
  have hV : ∀ (col : ℤ) (height : ℕ) (direction : ℤ) (speed r : ℚ), 0 ≤ col →
      PatOK (addVerticalBar col height direction speed r) := by
    intro col height direction speed r h
    simp only [addVerticalBar, PatOK]
    unfold WIDTH
    omega
  intro p hp
  rcases level with _ | _ | _ | _ | _ | _ | _ | _ | _ | _ | _ | _ | _ | n
  all_goals simp only [generateLavaPatterns, addRollingX, addRowMarch,
    addColumnMarch, addRotatingCross, addSpiralPattern, addDiagonalSweep,
    addPulsingGrayTiles, List.range_succ, List.range_zero, List.map_append,
    List.map_cons, List.map_nil, List.nil_append, List.cons_append,
    List.mem_cons, List.not_mem_nil, or_false, List.mem_singleton] at hp
  · rcases hp with rfl | rfl
    · exact hH _ _ _ _ _ (by norm_num)
    · exact hH _ _ _ _ _ (by norm_num)
  · rcases hp with rfl | rfl | rfl
    · exact hH _ _ _ _ _ (by norm_num)
    · exact hH _ _ _ _ _ (by norm_num)
    · exact hV _ _ _ _ _ (by norm_num)
  · rcases hp with rfl | rfl | rfl | rfl
    · exact hH _ _ _ _ _ (by norm_num)
    · exact hH _ _ _ _ _ (by norm_num)
    · exact hV _ _ _ _ _ (by norm_num)
    · exact hV _ _ _ _ _ (by norm_num)
  · rcases hp with rfl | rfl | rfl
    · trivial
    · trivial
    · trivial
  · rcases hp with rfl | rfl
    · exact (by norm_num : (0 : ℚ) ≤ 8 / 10)
    · exact hH _ _ _ _ _ (by norm_num)
  · rcases hp with rfl | rfl
    · exact (by norm_num : (0 : ℚ) ≤ 9 / 10)
    · exact (by norm_num : (0 : ℚ) ≤ 7 / 10)
  · rcases hp with rfl
    trivial
  · rcases hp with rfl | rfl | rfl
    · trivial
    · exact hH _ _ _ _ _ (by norm_num)
    · exact hH _ _ _ _ _ (by norm_num)
  · rcases hp with rfl | rfl | rfl
    · trivial
    · exact hV _ _ _ _ _ (by norm_num)
    · exact hV _ _ _ _ _ (by norm_num)
  · rcases hp with rfl | rfl | rfl
    · trivial
    · exact hH _ _ _ _ _ (by norm_num)
    · exact hH _ _ _ _ _ (by norm_num)
  · rcases hp with rfl | rfl | rfl
    · exact (by norm_num : (0 : ℚ) ≤ 7 / 10)
    · exact (by norm_num : (0 : ℚ) ≤ 5 / 10)
    · exact hH _ _ _ _ _ (by norm_num)
  · rcases hp with rfl | rfl | rfl | rfl | rfl | rfl
    · trivial
    · trivial
    · exact hH _ _ _ _ _ (by norm_num)
    · exact hH _ _ _ _ _ (by norm_num)
    · exact hV _ _ _ _ _ (by norm_num)
    · exact hV _ _ _ _ _ (by norm_num)

/-- The full 12×16 grid as a coordinate set. -/
def gridCells : Finset Coord :=
  ((List.range (WIDTH.toNat)).flatMap (fun (x : ℕ) =>
    (List.range (HEIGHT.toNat)).map (fun (z : ℕ) =>
      (((x : ℤ), (z : ℤ)) : Coord)))).toFinset

lemma mem_gridCells (c : Coord) : c ∈ gridCells ↔ inGrid c := by
  unfold gridCells inGrid
  rw [List.mem_toFinset]
  simp only [List.mem_flatMap, List.mem_map, List.mem_range]
  constructor
  · rintro ⟨x, hx, z, hz, rfl⟩
    refine ⟨Int.ofNat_nonneg x, ?_, Int.ofNat_nonneg z, ?_⟩
    · have hcast : (x : ℤ) < (WIDTH.toNat : ℤ) := by exact_mod_cast hx
      omega
    · have hcast : (z : ℤ) < (HEIGHT.toNat : ℤ) := by exact_mod_cast hz
      omega
  · rintro ⟨h1, h2, h3, h4⟩
    refine ⟨c.1.toNat, ?_, c.2.toNat, ?_, ?_⟩
    · omega
    · omega
    · rw [Int.toNat_of_nonneg h1, Int.toNat_of_nonneg h3]

/-- C2.  With the hazard patterns of a level script (levels 1..12) active,
every coordinate the per-tick resolution adds to `lavaTiles` lies inside
the 12×16 grid, for every evaluation time, every random draw and every
trig environment; the evaluators are total, so evaluation never fails. -/
theorem pattern_coordinates_in_bounds (env : MathEnv) (rnd : ℕ → ℚ × ℚ)
    (patRnd : ℕ → ℚ) (time : ℚ) (s : GState) (ht : 0 ≤ time)
    (h1 : 1 ≤ s.currentLevel) (h2 : s.currentLevel ≤ 12)
    (hpat : s.lavaPatterns = generateLavaPatterns s.currentLevel patRnd) :
    (updateLavaPatterns env rnd time s).lavaTiles ⊆ gridCells := by
  intro c hc
  rw [mem_gridCells]
  have hbs : 0 < baseSpeedFor s.currentLevel := by
    unfold baseSpeedFor BASE_SPEED SPEED_DECREASE
    have hcast : (s.currentLevel : ℚ) ≤ 12 := by exact_mod_cast h2
    linarith
  simp only [updateLavaPatterns] at hc
  rw [checkLavaCollision_lavaTiles] at hc
  rw [mem_foldl_union] at hc
  rcases hc with hinit | ⟨pr, hpr, hcpr⟩
  · exact absurd hinit (Finset.not_mem_empty c)
  · rw [List.mem_map] at hpr
    obtain ⟨ip, hip, rfl⟩ := hpr
    have hmem : ip.2 ∈ s.lavaPatterns :=
      List.getElem?_mem (List.mem_enum_iff_getElem?.1 hip)
    have hok : PatOK ip.2 := by
      rw [hpat] at hmem
      exact generateLavaPatterns_PatOK _ _ _ hmem
    exact evalPattern_inGrid env _ _ _ ht hbs hok c hcpr

/-- Witness for C2 at the concrete level-1 state and time 0. -/
theorem pattern_coordinates_in_bounds_witness :
    (updateLavaPatterns env0 (fun _ => (0, 0)) 0 cexState).lavaTiles ⊆
      gridCells :=
  pattern_coordinates_in_bounds env0 (fun _ => (0, 0)) (fun _ => 0) 0
    cexState (le_refl 0) (by decide) (by decide) rfl
